import Mathlib

/-!
Shallow embedding of the go-moon-phase utility (main.go) and proofs about
its phase-resolution, caching and formatting behaviour.

Instants are modelled as integer minute counts (Go's `time.Time` is an
integer nanosecond count; one minute is the finest granularity any input in
this development needs, so the scaling is exact).  `getPhaseDate` in the
source normalizes a phase event's calendar date to local midnight, so an
event's instant is a whole-day multiple of `1440` minutes; a target instant
is an arbitrary minute count.  `t2.Sub(t1).Hours() / 24 < 2` of the source
is exact arithmetic `t2 - t1 < 2880` in minutes, and `After` is `<`.
`log.Fatal` aborts the process and is modelled as `Except.error`; a normal
`return s` is `Except.ok s`.
-/

namespace MoonPhaseApp

/-- Minutes in one day. -/
def minutesPerDay : Int := 1440

/-- Minutes in two days, the proximity-snap threshold of the source
(`... .Hours() / 24 < 2`). -/
def twoDays : Int := 2880

/-- Moon phase event from API data (struct `MoonPhase` of the source). -/
structure MoonPhase where
  day : Int
  month : Int
  year : Int
  phase : String
  time : String
deriving DecidableEq, Repr

/-- Day number of a civil (Gregorian) date, days since 1970-01-01 — the
standard civil-to-day-count conversion that Go's `time.Date` performs
internally. -/
def daysFromCivil (y m d : Int) : Int :=
  let y2 : Int := if m ≤ 2 then y - 1 else y
  let era : Int := y2.ediv 400
  let yoe : Int := y2 - era * 400
  let mp : Int := (m + 9).emod 12
  let doy : Int := (153 * mp + 2).ediv 5 + d - 1
  let doe : Int := yoe * 365 + yoe.ediv 4 - yoe.ediv 100 + doy
  era * 146097 + doe - 719468

/-- `getPhaseDate` of the source: the instant (local midnight, in minutes)
of a phase event's calendar date. -/
def getPhaseDate (p : MoonPhase) : Int :=
  daysFromCivil p.year p.month p.day * minutesPerDay

/-- The instant (minutes) of local midnight of a civil date; used to write
concrete targets in theorems. -/
def midnightOf (y m d : Int) : Int :=
  daysFromCivil y m d * minutesPerDay

/-- The loop body of `getCurrentPhase` of the source, with the previous
element of the slice (`recentData[i-1]`) carried explicitly: `none` means
the current element is `recentData[0]`. -/
def getCurrentPhaseLoop (now : Int) (prevOpt : Option MoonPhase) :
    List MoonPhase → Except String String
  | [] => .ok "Error parsing phase"
  | phase :: rest =>
    if now < getPhaseDate phase then
      match prevOpt with
      | none => .error "date range of recent data doesn't have enough history"
      | some previousPhase =>
        if now - getPhaseDate previousPhase < twoDays then
          .ok previousPhase.phase
        else if getPhaseDate phase - now < twoDays then
          .ok phase.phase
        else if previousPhase.phase = "New Moon" ∧ phase.phase = "First Quarter" then
          .ok "Waxing Crescent"
        else if previousPhase.phase = "First Quarter" ∧ phase.phase = "Full Moon" then
          .ok "Waxing Crescent"
        else if previousPhase.phase = "Full Moon" ∧ phase.phase = "Last Quarter" then
          .ok "Waning Gibbous"
        else if previousPhase.phase = "Last Quarter" ∧ phase.phase = "New Moon" then
          .ok "Waning Crescent"
        else getCurrentPhaseLoop now (some phase) rest
    else getCurrentPhaseLoop now (some phase) rest

/-- `getCurrentPhase` of the source: scan `recentData` for the first event
strictly after `now`; snap to the previous or next event within 2 days,
otherwise map the bracketing pair of major phases to an intermediate phase;
fall through to the sentinel `"Error parsing phase"` when no branch returns.
`log.Fatal` (when an event after `now` is found at index `0`) is
`Except.error`. -/
def getCurrentPhase (now : Int) (recentData : List MoonPhase) : Except String String :=
  getCurrentPhaseLoop now none recentData

/-- The eight canonical named phases (the `NamedPhase` enumeration of the
spec; also exactly the keys of the source's `emojiMap`). -/
def namedPhases : List String :=
  ["New Moon", "Waxing Crescent", "First Quarter", "Waxing Gibbous",
   "Full Moon", "Waning Gibbous", "Last Quarter", "Waning Crescent"]

/-- The four canonical adjacent pairs of major phases, in cycle order. -/
def canonicalPairs : List (String × String) :=
  [("New Moon", "First Quarter"), ("First Quarter", "Full Moon"),
   ("Full Moon", "Last Quarter"), ("Last Quarter", "New Moon")]

/-- An ordered pair of major-phase names is canonically adjacent. -/
def canonicalPair (a b : String) : Prop := (a, b) ∈ canonicalPairs

instance (a b : String) : Decidable (canonicalPair a b) :=
  inferInstanceAs (Decidable ((a, b) ∈ canonicalPairs))

/-- Decidable equality for `Except`, used to evaluate the embedding on
concrete inputs. -/
def exceptDecEq {ε α : Type} [DecidableEq ε] [DecidableEq α] :
    (x y : Except ε α) → Decidable (x = y)
  | .error a, .error b =>
    if h : a = b then isTrue (by rw [h])
    else isFalse (by intro hc; cases hc; exact h rfl)
  | .error _, .ok _ => isFalse (by intro h; cases h)
  | .ok _, .error _ => isFalse (by intro h; cases h)
  | .ok a, .ok b =>
    if h : a = b then isTrue (by rw [h])
    else isFalse (by intro hc; cases hc; exact h rfl)

instance {ε α : Type} [DecidableEq ε] [DecidableEq α] : DecidableEq (Except ε α) :=
  exceptDecEq

/-- The last element of `pre`, or `prevOpt` when `pre` is empty: the value
the loop's previous-element register holds after scanning `pre`. -/
def lastOr (pre : List MoonPhase) (prevOpt : Option MoonPhase) : Option MoonPhase :=
  match pre with
  | [] => prevOpt
  | p :: rest => lastOr rest (some p)

theorem lastOr_append_single (pre : List MoonPhase) (prevOpt : Option MoonPhase)
    (x : MoonPhase) : lastOr (pre ++ [x]) prevOpt = some x := by
  induction pre generalizing prevOpt with
  | nil => rfl
  | cons p rest ih => simpa [lastOr] using ih (some p)

/-- Stepping the loop past an event that is not strictly in the future. -/
theorem loop_step_past (now : Int) (prevOpt : Option MoonPhase) (e : MoonPhase)
    (rest : List MoonPhase) (h : ¬ now < getPhaseDate e) :
    getCurrentPhaseLoop now prevOpt (e :: rest) =
      getCurrentPhaseLoop now (some e) rest := by
  cases prevOpt <;> simp only [getCurrentPhaseLoop, if_neg h]

/-- A future event at index `0` aborts (the source's `log.Fatal`). -/
theorem loop_step_first (now : Int) (e : MoonPhase) (rest : List MoonPhase)
    (h : now < getPhaseDate e) :
    getCurrentPhaseLoop now none (e :: rest) =
      .error "date range of recent data doesn't have enough history" := by
  simp only [getCurrentPhaseLoop, if_pos h]

/-- Stepping the loop onto the first future event once a previous event is
in hand: the branch cascade of the source, laid out flat. -/
theorem loop_step_future (now : Int) (p e : MoonPhase) (rest : List MoonPhase)
    (h : now < getPhaseDate e) :
    getCurrentPhaseLoop now (some p) (e :: rest) =
      if now - getPhaseDate p < twoDays then .ok p.phase
      else if getPhaseDate e - now < twoDays then .ok e.phase
      else if p.phase = "New Moon" ∧ e.phase = "First Quarter" then .ok "Waxing Crescent"
      else if p.phase = "First Quarter" ∧ e.phase = "Full Moon" then .ok "Waxing Crescent"
      else if p.phase = "Full Moon" ∧ e.phase = "Last Quarter" then .ok "Waning Gibbous"
      else if p.phase = "Last Quarter" ∧ e.phase = "New Moon" then .ok "Waning Crescent"
      else getCurrentPhaseLoop now (some e) rest := by
  simp only [getCurrentPhaseLoop, if_pos h]

/-- Scanning a block of events none of which is strictly in the future only
updates the previous-element register. -/
theorem getCurrentPhaseLoop_skip (now : Int) (prevOpt : Option MoonPhase)
    (pre rest : List MoonPhase) (h : ∀ e ∈ pre, getPhaseDate e ≤ now) :
    getCurrentPhaseLoop now prevOpt (pre ++ rest) =
      getCurrentPhaseLoop now (lastOr pre prevOpt) rest := by
  induction pre generalizing prevOpt with
  | nil => rfl
  | cons p rest' ih =>
    have hp : getPhaseDate p ≤ now := h p (by simp)
    rw [List.cons_append, loop_step_past now prevOpt p _ (by omega)]
    exact ih (some p) (fun e he => h e (by simp [he]))

/-- Reduce a window of the shape `pre ++ prevE :: rest` with everything in
`pre ++ [prevE]` at or before `now` to the loop sitting on `prevE`. -/
theorem getCurrentPhase_bracket (now : Int) (pre rest : List MoonPhase)
    (prevE : MoonPhase) (hpre : ∀ e ∈ pre, getPhaseDate e ≤ now)
    (hprev : getPhaseDate prevE ≤ now) :
    getCurrentPhase now (pre ++ prevE :: rest) =
      getCurrentPhaseLoop now (some prevE) rest := by
  unfold getCurrentPhase
  have hsplit : pre ++ prevE :: rest = (pre ++ [prevE]) ++ rest := by simp
  rw [hsplit, getCurrentPhaseLoop_skip now none (pre ++ [prevE]) rest ?_,
     lastOr_append_single]
  intro e he
  rcases List.mem_append.mp he with h | h
  · exact hpre e h
  · rw [List.mem_singleton.mp h]; exact hprev

/-- Claim C2: for every bracketing window (`pre ++ prevE :: nextE :: post`
with everything up to `prevE` at or before the target and `nextE` strictly
after it), a target strictly less than 2 days (2880 minutes) after `prevE`
resolves to `prevE`'s phase name; otherwise a target strictly less than
2 days before `nextE` resolves to `nextE`'s phase name.  No assumption on
the pair of phase names is needed: the proximity rule precedes
interpolation. -/
theorem resolve_proximity_snap (now : Int) (pre post : List MoonPhase)
    (prevE nextE : MoonPhase)
    (hpre : ∀ e ∈ pre, getPhaseDate e ≤ now)
    (hprev : getPhaseDate prevE ≤ now)
    (hnext : now < getPhaseDate nextE) :
    (now - getPhaseDate prevE < twoDays →
      getCurrentPhase now (pre ++ prevE :: nextE :: post) = .ok prevE.phase) ∧
    (twoDays ≤ now - getPhaseDate prevE → getPhaseDate nextE - now < twoDays →
      getCurrentPhase now (pre ++ prevE :: nextE :: post) = .ok nextE.phase) := by
  rw [getCurrentPhase_bracket now pre _ prevE hpre hprev,
     loop_step_future now prevE nextE post hnext]
  constructor
  · intro h1
    rw [if_pos h1]
  · intro h1 h2
    rw [if_neg (by omega), if_pos h2]

/-- Witness for C2, the spec's own numbers: events New Moon 2024-01-11 and
First Quarter 2024-01-18; a target 1.9 days (2736 minutes) after the New
Moon instant snaps back to New Moon, and a target 1.9 days before the First
Quarter instant snaps forward to First Quarter. -/
theorem resolve_proximity_snap_witness :
    getCurrentPhase (midnightOf 2024 1 11 + 2736)
      [⟨11, 1, 2024, "New Moon", ""⟩, ⟨18, 1, 2024, "First Quarter", ""⟩] =
        .ok "New Moon" ∧
    getCurrentPhase (midnightOf 2024 1 18 - 2736)
      [⟨11, 1, 2024, "New Moon", ""⟩, ⟨18, 1, 2024, "First Quarter", ""⟩] =
        .ok "First Quarter" := by
  constructor
  · exact (resolve_proximity_snap (midnightOf 2024 1 11 + 2736) [] []
      ⟨11, 1, 2024, "New Moon", ""⟩ ⟨18, 1, 2024, "First Quarter", ""⟩
      (by simp) (by decide) (by decide)).1 (by decide)
  · exact (resolve_proximity_snap (midnightOf 2024 1 18 - 2736) [] []
      ⟨11, 1, 2024, "New Moon", ""⟩ ⟨18, 1, 2024, "First Quarter", ""⟩
      (by simp) (by decide) (by decide)).2 (by decide) (by decide)

/-- Claim C1 (code bug evidence): at the exact interpolation midpoint of the
pair (First Quarter 2024-01-18, Full Moon 2024-01-25) — 3.5 days = 5040
minutes from either event, so neither proximity condition holds — the code
returns "Waxing Crescent", not the "Waxing Gibbous" that both the claim and
the source's own comment on this branch state. -/
theorem resolve_fq_fm_midpoint_bug :
    getCurrentPhase (midnightOf 2024 1 18 + 5040)
      [⟨18, 1, 2024, "First Quarter", ""⟩, ⟨25, 1, 2024, "Full Moon", ""⟩] =
        .ok "Waxing Crescent" ∧
    ("Waxing Crescent" : String) ≠ "Waxing Gibbous" := by decide

/-- Claim C10: a window event dated exactly at the target instant, followed
by an event strictly after the target, is treated as the bracketing
previous event at zero-day distance and snapped to — also when it is the
very first element of the window (take `pre = []`), so no event strictly
before the target is needed. -/
theorem resolve_equal_date_snap (now : Int) (pre post : List MoonPhase)
    (e0 e1 : MoonPhase)
    (hpre : ∀ e ∈ pre, getPhaseDate e ≤ now)
    (heq : getPhaseDate e0 = now)
    (hafter : now < getPhaseDate e1) :
    getCurrentPhase now (pre ++ e0 :: e1 :: post) = .ok e0.phase := by
  rw [getCurrentPhase_bracket now pre _ e0 hpre (le_of_eq heq),
     loop_step_future now e0 e1 post hafter]
  have h2 : twoDays = 2880 := rfl
  rw [if_pos (by omega)]

/-- Witness for C10: the New Moon event of 2024-01-11 dated exactly at the
target, as the first window element, with the First Quarter event
2024-01-18 after it: resolution succeeds with "New Moon". -/
theorem resolve_equal_date_snap_witness :
    getCurrentPhase (midnightOf 2024 1 11)
      [⟨11, 1, 2024, "New Moon", ""⟩, ⟨18, 1, 2024, "First Quarter", ""⟩] =
        .ok "New Moon" :=
  resolve_equal_date_snap (midnightOf 2024 1 11) [] []
    ⟨11, 1, 2024, "New Moon", ""⟩ ⟨18, 1, 2024, "First Quarter", ""⟩
    (by simp) (by decide) (by decide)

/-- Claim C4, amended: when the first event strictly after the target is
the window's first element, resolution aborts fatally (`Except.error`, the
source's `log.Fatal`); but when no event in the window is strictly after
the target, resolution does not fail — it falls through the loop and
returns the sentinel string "Error parsing phase" as a normal value. -/
theorem resolve_unbracketed (now : Int) (e0 : MoonPhase)
    (rest events : List MoonPhase) :
    (now < getPhaseDate e0 →
      getCurrentPhase now (e0 :: rest) =
        .error "date range of recent data doesn't have enough history") ∧
    ((∀ e ∈ events, getPhaseDate e ≤ now) →
      getCurrentPhase now events = .ok "Error parsing phase") := by
  constructor
  · intro h
    exact loop_step_first now e0 rest h
  · intro h
    unfold getCurrentPhase
    have hnil : events = events ++ [] := by simp
    rw [hnil, getCurrentPhaseLoop_skip now none events [] h]
    rfl

/-- Witness for C4 (amended): a window whose single event New Moon
2024-01-19 is strictly after the target 2024-01-15 aborts fatally, while a
window whose single event New Moon 2024-01-11 lies before the target
2024-01-15 yields the sentinel `.ok "Error parsing phase"`. -/
theorem resolve_unbracketed_witness :
    getCurrentPhase (midnightOf 2024 1 15) [⟨19, 1, 2024, "New Moon", ""⟩] =
      .error "date range of recent data doesn't have enough history" ∧
    getCurrentPhase (midnightOf 2024 1 15) [⟨11, 1, 2024, "New Moon", ""⟩] =
      .ok "Error parsing phase" := by
  constructor
  · exact (resolve_unbracketed (midnightOf 2024 1 15) ⟨19, 1, 2024, "New Moon", ""⟩
      [] [⟨11, 1, 2024, "New Moon", ""⟩]).1 (by decide)
  · exact (resolve_unbracketed (midnightOf 2024 1 15) ⟨19, 1, 2024, "New Moon", ""⟩
      [] [⟨11, 1, 2024, "New Moon", ""⟩]).2 (by decide)

/-- Counterexample to C4 as stated: with no event of the window strictly
after the target (window: New Moon 2024-01-11, target 2024-01-15), the
claim demands a fatal error, but resolution returns normally with the
sentinel string — an `Except.ok`, not an `Except.error` — which the caller
then formats, caches and prints with exit status 0. -/
theorem resolve_unbracketed_counterexample :
    getCurrentPhase (midnightOf 2024 1 15) [⟨11, 1, 2024, "New Moon", ""⟩] =
      .ok "Error parsing phase" := by decide

/-- Claim C5, amended: a non-canonical bracketing pair with the target in
the middle of the interval yields the sentinel "Error parsing phase" only
when the pair's later event is the last element of the window — the scan
falls off the end of the slice.  (When later events follow the
non-canonical pair, the scan keeps going instead; see the counterexample.) -/
theorem resolve_noncanonical_last (now : Int) (pre : List MoonPhase)
    (prevE nextE : MoonPhase)
    (hpre : ∀ e ∈ pre, getPhaseDate e ≤ now)
    (hprev : getPhaseDate prevE ≤ now)
    (hnext : now < getPhaseDate nextE)
    (hfar1 : twoDays ≤ now - getPhaseDate prevE)
    (hfar2 : twoDays ≤ getPhaseDate nextE - now)
    (hnc : ¬ canonicalPair prevE.phase nextE.phase) :
    getCurrentPhase now (pre ++ [prevE, nextE]) = .ok "Error parsing phase" := by
  rw [show pre ++ [prevE, nextE] = pre ++ prevE :: nextE :: [] from rfl,
     getCurrentPhase_bracket now pre _ prevE hpre hprev,
     loop_step_future now prevE nextE [] hnext,
     if_neg (by omega), if_neg (by omega)]
  rw [if_neg fun h => hnc (by simp [canonicalPair, canonicalPairs, h.1, h.2]),
     if_neg fun h => hnc (by simp [canonicalPair, canonicalPairs, h.1, h.2]),
     if_neg fun h => hnc (by simp [canonicalPair, canonicalPairs, h.1, h.2]),
     if_neg fun h => hnc (by simp [canonicalPair, canonicalPairs, h.1, h.2])]
  rfl

/-- Witness for C5 (amended): window (New Moon 2024-01-01, Full Moon
2024-01-11) — not canonically adjacent — with the target 2024-01-06 five
days from either event and the Full Moon last in the window: the sentinel
comes back. -/
theorem resolve_noncanonical_last_witness :
    getCurrentPhase (midnightOf 2024 1 6)
      [⟨1, 1, 2024, "New Moon", ""⟩, ⟨11, 1, 2024, "Full Moon", ""⟩] =
      .ok "Error parsing phase" :=
  resolve_noncanonical_last (midnightOf 2024 1 6) []
    ⟨1, 1, 2024, "New Moon", ""⟩ ⟨11, 1, 2024, "Full Moon", ""⟩
    (by simp) (by decide) (by decide) (by decide) (by decide) (by decide)

/-- Counterexample to C5 as stated: the bracketing pair around target
2024-01-06 is (New Moon 2024-01-01, Full Moon 2024-01-11) — not one of the
four canonical pairs, with the target five days from either event — yet
with a Last Quarter event 2024-01-18 after it in the window, the scan
continues to the next iteration and returns the phase "Full Moon" (because
`now - getPhaseDate fullMoon` is negative, the previous-proximity test
succeeds there), instead of signalling any error. -/
theorem resolve_noncanonical_counterexample :
    getCurrentPhase (midnightOf 2024 1 6)
      [⟨1, 1, 2024, "New Moon", ""⟩, ⟨11, 1, 2024, "Full Moon", ""⟩,
       ⟨18, 1, 2024, "Last Quarter", ""⟩] = .ok "Full Moon" := by decide

/-- With a previous event in hand, some future event in the remaining slice
and every adjacent pair of phase names canonically adjacent from the
previous event on, the loop returns one of the eight named phases. -/
theorem loop_canonical (now : Int) (l : List MoonPhase) (p : MoonPhase)
    (hex : ∃ e ∈ l, now < getPhaseDate e)
    (hchain : List.Chain (fun a b => canonicalPair a.phase b.phase) p l) :
    ∃ s ∈ namedPhases, getCurrentPhaseLoop now (some p) l = .ok s := by
  induction l generalizing p with
  | nil => simp at hex
  | cons e rest ih =>
    rcases List.chain_cons.mp hchain with ⟨hcp, htail⟩
    by_cases hf : now < getPhaseDate e
    · rw [loop_step_future now p e rest hf]
      by_cases h1 : now - getPhaseDate p < twoDays
      · rw [if_pos h1]
        refine ⟨p.phase, ?_, rfl⟩
        have hm := hcp
        simp [canonicalPair, canonicalPairs] at hm
        rcases hm with ⟨h, -⟩ | ⟨h, -⟩ | ⟨h, -⟩ | ⟨h, -⟩ <;> simp [namedPhases, h]
      · rw [if_neg h1]
        by_cases h2 : getPhaseDate e - now < twoDays
        · rw [if_pos h2]
          refine ⟨e.phase, ?_, rfl⟩
          have hm := hcp
          simp [canonicalPair, canonicalPairs] at hm
          rcases hm with ⟨-, h⟩ | ⟨-, h⟩ | ⟨-, h⟩ | ⟨-, h⟩ <;> simp [namedPhases, h]
        · rw [if_neg h2]
          have hm := hcp
          simp [canonicalPair, canonicalPairs] at hm
          rcases hm with ⟨ha, hb⟩ | ⟨ha, hb⟩ | ⟨ha, hb⟩ | ⟨ha, hb⟩
          · rw [if_pos ⟨ha, hb⟩]
            exact ⟨"Waxing Crescent", by simp [namedPhases], rfl⟩
          · rw [if_neg (fun hcon => by rw [ha] at hcon; exact absurd hcon.1 (by decide)),
               if_pos ⟨ha, hb⟩]
            exact ⟨"Waxing Crescent", by simp [namedPhases], rfl⟩
          · rw [if_neg (fun hcon => by rw [ha] at hcon; exact absurd hcon.1 (by decide)),
               if_neg (fun hcon => by rw [ha] at hcon; exact absurd hcon.1 (by decide)),
               if_pos ⟨ha, hb⟩]
            exact ⟨"Waning Gibbous", by simp [namedPhases], rfl⟩
          · rw [if_neg (fun hcon => by rw [ha] at hcon; exact absurd hcon.1 (by decide)),
               if_neg (fun hcon => by rw [ha] at hcon; exact absurd hcon.1 (by decide)),
               if_neg (fun hcon => by rw [ha] at hcon; exact absurd hcon.1 (by decide)),
               if_pos ⟨ha, hb⟩]
            exact ⟨"Waning Crescent", by simp [namedPhases], rfl⟩
    · rw [loop_step_past now (some p) e rest hf]
      apply ih e ?_ htail
      rcases hex with ⟨x, hx, hlt⟩
      rcases List.mem_cons.mp hx with rfl | hx'
      · exact absurd hlt hf
      · exact ⟨x, hx', hlt⟩

/-- Claim C3, amended: for a window whose first event is strictly before
and whose last event is strictly after the target, and whose consecutive
phase names are canonically adjacent in the major-phase cycle, resolution
succeeds with one of the eight named phases — never the fatal error and
never the sentinel. -/
theorem resolve_canonical_total (now : Int) (e0 : MoonPhase) (rest : List MoonPhase)
    (hfirst : getPhaseDate e0 < now)
    (hlast : now < getPhaseDate ((e0 :: rest).getLast (by simp)))
    (hchain : List.Chain (fun a b => canonicalPair a.phase b.phase) e0 rest) :
    ∃ s ∈ namedPhases, getCurrentPhase now (e0 :: rest) = .ok s := by
  unfold getCurrentPhase
  rw [loop_step_past now none e0 rest (by omega)]
  apply loop_canonical now rest e0 ?_ hchain
  cases rest with
  | nil =>
    exfalso
    have h : (([e0] : List MoonPhase)).getLast (by simp) = e0 := rfl
    rw [h] at hlast
    omega
  | cons r t =>
    refine ⟨(r :: t).getLast (by simp), List.getLast_mem _, ?_⟩
    have heq : (e0 :: r :: t).getLast (by simp) = (r :: t).getLast (by simp) :=
      List.getLast_cons (by simp)
    rw [← heq]
    exact hlast

/-- Witness for C3 (amended), the spec's end-to-end example: events New
Moon 2024-01-11, First Quarter 2024-01-18, Full Moon 2024-01-25 and target
2024-01-14 — the result is one of the eight named phases. -/
theorem resolve_canonical_total_witness :
    ∃ s ∈ namedPhases,
      getCurrentPhase (midnightOf 2024 1 14)
        [⟨11, 1, 2024, "New Moon", ""⟩, ⟨18, 1, 2024, "First Quarter", ""⟩,
         ⟨25, 1, 2024, "Full Moon", ""⟩] = .ok s :=
  resolve_canonical_total (midnightOf 2024 1 14) ⟨11, 1, 2024, "New Moon", ""⟩
    [⟨18, 1, 2024, "First Quarter", ""⟩, ⟨25, 1, 2024, "Full Moon", ""⟩]
    (by decide) (by decide)
    (List.Chain.cons (by decide) (List.Chain.cons (by decide) List.Chain.nil))

/-- Counterexample to C3 as stated: the window (New Moon 2024-01-01, Full
Moon 2024-01-11) is chronologically sorted, its phase names are valid major
phases, and the target 2024-01-06 lies strictly between first and last
event; yet resolution yields the error sentinel "Error parsing phase",
which is not one of the eight named phases. -/
theorem resolve_total_counterexample :
    getCurrentPhase (midnightOf 2024 1 6)
      [⟨1, 1, 2024, "New Moon", ""⟩, ⟨11, 1, 2024, "Full Moon", ""⟩] =
      .ok "Error parsing phase" ∧
    "Error parsing phase" ∉ namedPhases := by decide

/-! ## Cache store and output formatter

Calendar dates for the cache path (`-date` flag, save-file record).  A Go
`time.Time` produced by `time.ParseInLocation("2006-01-02", ..)` is local
midnight of a calendar date, and `==` on two such values is equality of the
calendar dates, so a plain (year, month, day) triple models it. -/

/-- A calendar date as carried by the cache path of `main`. -/
structure Date where
  year : Nat
  month : Nat
  day : Nat
deriving DecidableEq, Repr

/-- Gregorian leap-year rule (as in Go's `time` package). -/
def isLeapYear (y : Nat) : Bool :=
  y % 4 == 0 && (y % 100 != 0 || y % 400 == 0)

/-- Days in a month (as validated by Go's date parsing). -/
def daysInMonth (y m : Nat) : Nat :=
  if m = 2 then (if isLeapYear y then 29 else 28)
  else if m = 4 ∨ m = 6 ∨ m = 9 ∨ m = 11 then 30
  else 31

/-- The decimal digit character for `k % 10`-style values. -/
def digitChar : Nat → Char
  | 0 => '0'
  | 1 => '1'
  | 2 => '2'
  | 3 => '3'
  | 4 => '4'
  | 5 => '5'
  | 6 => '6'
  | 7 => '7'
  | 8 => '8'
  | _ => '9'

/-- Numeric value of a decimal digit character. -/
def digitVal (c : Char) : Nat := c.toNat - 48

/-- Two-digit zero-padded decimal rendering (Go's `01` / `02` layout
elements). -/
def pad2 (n : Nat) : List Char := [digitChar (n / 10 % 10), digitChar (n % 10)]

/-- Four-digit zero-padded decimal rendering (Go's `2006` layout element,
for years 0–9999). -/
def pad4 (n : Nat) : List Char :=
  [digitChar (n / 1000 % 10), digitChar (n / 100 % 10),
   digitChar (n / 10 % 10), digitChar (n % 10)]

/-- `date.Format("2006-01-02")` of the source. -/
def formatDate (d : Date) : String :=
  ⟨pad4 d.year ++ '-' :: pad2 d.month ++ '-' :: pad2 d.day⟩

/-- `time.ParseInLocation("2006-01-02", s, loc)` of the source: exactly
four digits, a dash, two digits, a dash, two digits, nothing after; month
and day validated against the calendar.  `none` is a parse error. -/
def parseDate (s : String) : Option Date :=
  match s.data with
  | [y1, y2, y3, y4, '-', m1, m2, '-', d1, d2] =>
    if y1.isDigit ∧ y2.isDigit ∧ y3.isDigit ∧ y4.isDigit ∧
       m1.isDigit ∧ m2.isDigit ∧ d1.isDigit ∧ d2.isDigit then
      if 1 ≤ digitVal m1 * 10 + digitVal m2 ∧ digitVal m1 * 10 + digitVal m2 ≤ 12 ∧
         1 ≤ digitVal d1 * 10 + digitVal d2 ∧
         digitVal d1 * 10 + digitVal d2 ≤
           daysInMonth
             (((digitVal y1 * 10 + digitVal y2) * 10 + digitVal y3) * 10 + digitVal y4)
             (digitVal m1 * 10 + digitVal m2) then
        some ⟨((digitVal y1 * 10 + digitVal y2) * 10 + digitVal y3) * 10 + digitVal y4,
              digitVal m1 * 10 + digitVal m2,
              digitVal d1 * 10 + digitVal d2⟩
      else none
    else none
  | _ => none

/-- `strings.Split(s, ",")` on the character list: split at every comma,
keeping empty fields; always returns at least one field. -/
def splitCommaChars : List Char → List (List Char)
  | [] => [[]]
  | c :: rest =>
    if c = ',' then [] :: splitCommaChars rest
    else
      match splitCommaChars rest with
      | [] => [[c]]
      | g :: gs => (c :: g) :: gs

/-- `strings.Split(content, ",")` of the source. -/
def goSplitComma (s : String) : List String :=
  (splitCommaChars s.data).map fun l => ⟨l⟩

/-- `parseSaveFile` of the source.  `splitContent[0]` is total because
`strings.Split` always returns at least one field (modelled by `headD`);
a date parse error is the source's `log.Fatal(err)`, and `splitContent[1]`
on a one-field slice is a Go index-out-of-range panic.  Both abort the
process: `Except.error`. -/
def parseSaveFile (content : String) : Except String (Date × String) :=
  let splitContent := goSplitComma content
  match parseDate (splitContent.headD "") with
  | none => .error "fatal: Error parsing date from savefile"
  | some saveTime =>
    match splitContent[1]? with
    | none => .error "panic: index out of range"
    | some savePhase => .ok (saveTime, savePhase)

/-- The byte string `savePhaseToFile` of the source writes:
`fmt.Sprintf("%s,%s\n", date.Format("2006-01-02"), phase)`. -/
def savePhaseText (date : Date) (phase : String) : String :=
  formatDate date ++ "," ++ phase ++ "\n"

/-- `strings.Trim(s, "\n")` of the source: strip leading and trailing
newline characters. -/
def trimNewlines (s : String) : String :=
  ⟨((s.data.dropWhile fun c => c = '\n').reverse.dropWhile fun c => c = '\n').reverse⟩

/-- The source's `emojiMap` lookup, with Go's zero-value `""` on a miss. -/
def emojiLookup (s : String) : String :=
  if s = "New Moon" then "🌑"
  else if s = "Waxing Crescent" then "🌒"
  else if s = "First Quarter" then "🌓"
  else if s = "Waxing Gibbous" then "🌔"
  else if s = "Full Moon" then "🌕"
  else if s = "Waning Gibbous" then "🌖"
  else if s = "Last Quarter" then "🌗"
  else if s = "Waning Crescent" then "🌘"
  else ""

/-- `getOutput` of the source: plaintext returns the phase with newlines
trimmed; otherwise the emoji for the trimmed phase. -/
def getOutput (phase : String) (plaintext : Bool) : String :=
  if plaintext then trimNewlines phase else emojiLookup (trimNewlines phase)

/-- The cache-consult step of `main`: with the loaded save-file content
(`loadSaveFile` returns `""` when the file is missing or unreadable), the
requested date and the plaintext flag, decide what the invocation does
next.  `.error` is a process abort inside `parseSaveFile`;
`.ok (some out)` means the cached phase is printed as `out` and the process
exits 0 — in particular no Data Provider call happens; `.ok none` means
the invocation falls through to the fetch-and-resolve path. -/
def mainCacheStep (saveFileContent : String) (dateFromFlag : Date)
    (plaintext : Bool) : Except String (Option String) :=
  if saveFileContent ≠ "" then
    match parseSaveFile saveFileContent with
    | .error e => .error e
    | .ok (saveDate, savePhase) =>
      if saveDate = dateFromFlag then .ok (some (getOutput savePhase plaintext))
      else .ok none
  else .ok none

/-- Claim C6: when the save file parses to a record whose date equals the
requested date, the invocation prints the cached phase (through the
formatter) and exits — `.ok (some ..)`, the no-fetch outcome — so no Data
Provider call occurs. -/
theorem cache_hit_no_fetch (content : String) (d : Date) (p : String) (mode : Bool)
    (hparse : parseSaveFile content = .ok (d, p)) :
    mainCacheStep content d mode = .ok (some (getOutput p mode)) := by
  have hne : content ≠ "" := by
    intro h
    subst h
    have h0 : parseSaveFile "" = .error "fatal: Error parsing date from savefile" := by
      decide
    rw [h0] at hparse
    exact Except.noConfusion hparse
  unfold mainCacheStep
  rw [if_pos hne, hparse]
  simp

/-- Witness for C6, the spec's cache-hit scenario: content
`"2024-01-14,WaxingCrescent"` with requested date 2024-01-14 short-circuits
to printing `WaxingCrescent` (plaintext mode) with no fetch. -/
theorem cache_hit_no_fetch_witness :
    mainCacheStep "2024-01-14,WaxingCrescent" ⟨2024, 1, 14⟩ true =
      .ok (some "WaxingCrescent") :=
  (cache_hit_no_fetch "2024-01-14,WaxingCrescent" ⟨2024, 1, 14⟩ "WaxingCrescent"
    true (by decide)).trans (by decide)

/-- Claim C7, amended: only an absent or unreadable cache file — `""`
content, since `loadSaveFile` maps read errors to the empty string — is
treated as a cache miss; cache content that fails to parse aborts the
whole invocation (`log.Fatal` on a malformed date, an index-out-of-range
panic on a missing comma), it is not treated as a miss. -/
theorem cache_parse_failure_fatal (d : Date) (mode : Bool) (c e : String)
    (hc : c ≠ "") (hparse : parseSaveFile c = .error e) :
    mainCacheStep c d mode = .error e ∧ mainCacheStep "" d mode = .ok none := by
  constructor
  · unfold mainCacheStep
    rw [if_pos hc, hparse]
  · unfold mainCacheStep
    rw [if_neg (by simp)]

/-- Witness for C7 (amended): the content `"not-a-date,Full Moon"` has a
malformed date field and aborts fatally, while empty content proceeds as a
cache miss. -/
theorem cache_parse_failure_fatal_witness :
    mainCacheStep "not-a-date,Full Moon" ⟨2024, 1, 14⟩ false =
      .error "fatal: Error parsing date from savefile" ∧
    mainCacheStep "" ⟨2024, 1, 14⟩ false = .ok none :=
  cache_parse_failure_fatal ⟨2024, 1, 14⟩ false "not-a-date,Full Moon"
    "fatal: Error parsing date from savefile" (by decide) (by decide)

/-- Counterexample to C7 as stated: two cache contents that fail to parse —
`"garbage"` (malformed date) and `"2024-01-14"` (no comma separator) — do
not lead to cache-miss processing; the first hits `log.Fatal` and the
second panics indexing `splitContent[1]`, both fatal to the command. -/
theorem cache_parse_failure_counterexample :
    mainCacheStep "garbage" ⟨2024, 1, 14⟩ true =
      .error "fatal: Error parsing date from savefile" ∧
    mainCacheStep "2024-01-14" ⟨2024, 1, 14⟩ true =
      .error "panic: index out of range" := by decide

/-- Claim C9: for each of the eight named phases, plaintext mode returns
the canonical name unchanged, and symbolic mode returns a non-empty glyph
that no other of the eight phases maps to. -/
theorem formatter_total : ∀ p ∈ namedPhases,
    getOutput p true = p ∧ getOutput p false ≠ "" ∧
    ∀ q ∈ namedPhases, getOutput q false = getOutput p false → q = p := by
  decide

/-- Witness for C9 at the phase "Full Moon": plaintext echoes the name and
the glyph is non-empty. -/
theorem formatter_total_witness :
    getOutput "Full Moon" true = "Full Moon" ∧ getOutput "Full Moon" false ≠ "" :=
  ⟨(formatter_total "Full Moon" (by decide)).1,
   (formatter_total "Full Moon" (by decide)).2.1⟩

theorem digitChar_isDigit (k : Nat) (h : k < 10) : (digitChar k).isDigit = true := by
  interval_cases k <;> decide

theorem digitVal_digitChar (k : Nat) (h : k < 10) : digitVal (digitChar k) = k := by
  interval_cases k <;> decide

theorem digitChar_ne_comma (k : Nat) : digitChar k ≠ ',' := by
  unfold digitChar
  split <;> decide

/-- The rendered date is the explicit ten-character list. -/
theorem formatDate_eq (y m dd : Nat) :
    formatDate ⟨y, m, dd⟩ =
      ⟨[digitChar (y / 1000 % 10), digitChar (y / 100 % 10), digitChar (y / 10 % 10),
        digitChar (y % 10), '-', digitChar (m / 10 % 10), digitChar (m % 10), '-',
        digitChar (dd / 10 % 10), digitChar (dd % 10)]⟩ := rfl

theorem comma_not_mem_formatDate (y m dd : Nat) :
    ',' ∉ (formatDate ⟨y, m, dd⟩).data := by
  rw [formatDate_eq]
  intro hmem
  simp only [List.mem_cons, List.not_mem_nil, or_false] at hmem
  rcases hmem with h | h | h | h | h | h | h | h | h | h <;>
    first
      | exact digitChar_ne_comma _ h.symm
      | exact absurd h.symm (by decide)

theorem daysInMonth_le (y m : Nat) : daysInMonth y m ≤ 31 := by
  unfold daysInMonth
  split_ifs <;> omega

/-- Parsing inverts formatting on every calendar-valid date with a
four-digit year. -/
theorem parseDate_formatDate (y m dd : Nat) (hy : y ≤ 9999) (hm1 : 1 ≤ m)
    (hm2 : m ≤ 12) (hd1 : 1 ≤ dd) (hd2 : dd ≤ daysInMonth y m) :
    parseDate (formatDate ⟨y, m, dd⟩) = some ⟨y, m, dd⟩ := by
  rw [formatDate_eq]
  show (if (digitChar (y / 1000 % 10)).isDigit = true ∧
          (digitChar (y / 100 % 10)).isDigit = true ∧
          (digitChar (y / 10 % 10)).isDigit = true ∧
          (digitChar (y % 10)).isDigit = true ∧
          (digitChar (m / 10 % 10)).isDigit = true ∧
          (digitChar (m % 10)).isDigit = true ∧
          (digitChar (dd / 10 % 10)).isDigit = true ∧
          (digitChar (dd % 10)).isDigit = true then _ else none) = _
  rw [if_pos ⟨digitChar_isDigit _ (by omega), digitChar_isDigit _ (by omega),
      digitChar_isDigit _ (by omega), digitChar_isDigit _ (by omega),
      digitChar_isDigit _ (by omega), digitChar_isDigit _ (by omega),
      digitChar_isDigit _ (by omega), digitChar_isDigit _ (by omega)⟩]
  rw [digitVal_digitChar (y / 1000 % 10) (by omega),
     digitVal_digitChar (y / 100 % 10) (by omega),
     digitVal_digitChar (y / 10 % 10) (by omega),
     digitVal_digitChar (y % 10) (by omega),
     digitVal_digitChar (m / 10 % 10) (by omega),
     digitVal_digitChar (m % 10) (by omega),
     digitVal_digitChar (dd / 10 % 10) (by omega),
     digitVal_digitChar (dd % 10) (by omega)]
  have hyv : ((y / 1000 % 10 * 10 + y / 100 % 10) * 10 + y / 10 % 10) * 10 + y % 10 = y := by
    omega
  have hmv : m / 10 % 10 * 10 + m % 10 = m := by omega
  have hdm31 : daysInMonth y m ≤ 31 := daysInMonth_le y m
  have hdv : dd / 10 % 10 * 10 + dd % 10 = dd := by omega
  rw [hyv, hmv, hdv, if_pos ⟨hm1, hm2, hd1, hd2⟩]

theorem splitCommaChars_append (a b : List Char) (ha : ',' ∉ a) :
    splitCommaChars (a ++ ',' :: b) = a :: splitCommaChars b := by
  induction a with
  | nil => simp [splitCommaChars]
  | cons c t ih =>
    have hc : c ≠ ',' := fun h => ha (h ▸ List.mem_cons_self c t)
    have ht : ',' ∉ t := fun h => ha (List.mem_cons_of_mem c h)
    rw [List.cons_append]
    simp only [splitCommaChars, if_neg hc]
    rw [ih ht]

theorem splitCommaChars_no_comma (l : List Char) (h : ',' ∉ l) :
    splitCommaChars l = [l] := by
  induction l with
  | nil => rfl
  | cons c t ih =>
    have hc : c ≠ ',' := fun hcc => h (hcc ▸ List.mem_cons_self c t)
    have ht : ',' ∉ t := fun hm => h (List.mem_cons_of_mem c hm)
    simp only [splitCommaChars, if_neg hc]
    rw [ih ht]

/-- Claim C8, amended: the record written for date `d` and phase `p` is
the newline-terminated line `"<YYYY-MM-DD>,<p>\n"`, and parsing it back
recovers the date exactly but the phase with the trailing newline still
attached: write-then-parse is the identity on the date and appends `"\n"`
to the phase (which the output formatter later trims). -/
theorem save_parse_roundtrip (y m dd : Nat) (p : String) (hy : y ≤ 9999)
    (hm1 : 1 ≤ m) (hm2 : m ≤ 12) (hd1 : 1 ≤ dd) (hd2 : dd ≤ daysInMonth y m)
    (hp : ',' ∉ p.data) :
    savePhaseText ⟨y, m, dd⟩ p = formatDate ⟨y, m, dd⟩ ++ "," ++ p ++ "\n" ∧
    parseSaveFile (savePhaseText ⟨y, m, dd⟩ p) = .ok (⟨y, m, dd⟩, p ++ "\n") := by
  refine ⟨rfl, ?_⟩
  have hdata : (savePhaseText ⟨y, m, dd⟩ p).data =
      (formatDate ⟨y, m, dd⟩).data ++ ',' :: (p.data ++ ['\n']) := by
    show ((formatDate ⟨y, m, dd⟩ ++ "," ++ p ++ "\n").data) = _
    rcases p with ⟨pl⟩
    rcases hfd : formatDate ⟨y, m, dd⟩ with ⟨fl⟩
    simp [String.append]
  have hsplit : goSplitComma (savePhaseText ⟨y, m, dd⟩ p) =
      [formatDate ⟨y, m, dd⟩, p ++ "\n"] := by
    unfold goSplitComma
    rw [hdata, splitCommaChars_append _ _ (comma_not_mem_formatDate y m dd),
       splitCommaChars_no_comma (p.data ++ ['\n']) ?_]
    · show [(⟨(formatDate ⟨y, m, dd⟩).data⟩ : String), ⟨p.data ++ ['\n']⟩] = _
      have h1 : (⟨(formatDate ⟨y, m, dd⟩).data⟩ : String) = formatDate ⟨y, m, dd⟩ := rfl
      have h2 : (⟨p.data ++ ['\n']⟩ : String) = p ++ "\n" := by
        rcases p with ⟨pl⟩
        rfl
      rw [h1, h2]
    · intro hmem
      rcases List.mem_append.mp hmem with h | h
      · exact hp h
      · exact absurd (List.mem_singleton.mp h) (by decide)
  unfold parseSaveFile
  rw [hsplit]
  show (match parseDate (([formatDate ⟨y, m, dd⟩, p ++ "\n"]).headD "") with
    | none => Except.error "fatal: Error parsing date from savefile"
    | some saveTime =>
      match ([formatDate ⟨y, m, dd⟩, p ++ "\n"])[1]? with
      | none => Except.error "panic: index out of range"
      | some savePhase => Except.ok (saveTime, savePhase)) = _
  rw [show ([formatDate ⟨y, m, dd⟩, p ++ "\n"]).headD "" = formatDate ⟨y, m, dd⟩ from rfl,
     parseDate_formatDate y m dd hy hm1 hm2 hd1 hd2]
  rfl

/-- Witness for C8 (amended) at date 2024-01-14 and phase "Waxing
Crescent": the stored line and the parse result, newline included. -/
theorem save_parse_roundtrip_witness :
    savePhaseText ⟨2024, 1, 14⟩ "Waxing Crescent" =
      formatDate ⟨2024, 1, 14⟩ ++ "," ++ "Waxing Crescent" ++ "\n" ∧
    parseSaveFile (savePhaseText ⟨2024, 1, 14⟩ "Waxing Crescent") =
      .ok (⟨2024, 1, 14⟩, "Waxing Crescent\n") :=
  save_parse_roundtrip 2024 1 14 "Waxing Crescent" (by omega) (by omega) (by omega)
    (by omega) (by decide) (by decide)

/-- Counterexample to C8 as stated: for date 2024-01-14 and phase "Waxing
Crescent" the stored record is `"2024-01-14,Waxing Crescent\n"` — not the
claimed bare line `"2024-01-14,Waxing Crescent"` — and parsing the stored
record yields the phase `"Waxing Crescent\n"`, not the original phase, so
write-then-parse is not the identity on the phase. -/
theorem save_parse_roundtrip_counterexample :
    savePhaseText ⟨2024, 1, 14⟩ "Waxing Crescent" ≠ "2024-01-14,Waxing Crescent" ∧
    parseSaveFile (savePhaseText ⟨2024, 1, 14⟩ "Waxing Crescent") =
      .ok (⟨2024, 1, 14⟩, "Waxing Crescent\n") ∧
    ("Waxing Crescent\n" : String) ≠ "Waxing Crescent" := by decide

end MoonPhaseApp
